import Mathlib

/-!
Verification development for the ECS deployment automation module
(`.dagger/src/aws_dagger_example/main.py`): a shallow embedding of the
`push` and `deploy` functions of the `AwsDaggerExample` object, together
with a small model of the external ECR/ECS state they interact with.

Python dictionaries coming back from the AWS API are embedded as records
with `Option` fields (`none` means the key is absent); Python strings
manipulated character-by-character (`str.split`) are embedded as
`List Char`; the sequence of external API calls a run performs is
recorded as a trace of `Event`s.
-/

namespace AwsDaggerExample

/-- Embedding of Python `str.split(sep)` with an explicit one-character
separator: splits at every occurrence of `sep`, keeping empty parts, and
returns `[[]]` on the empty string (Python: `"".split(":") == [""]`). -/
def pySplit (sep : Char) : List Char → List (List Char)
  | [] => [[]]
  | c :: cs =>
    if c = sep then [] :: pySplit sep cs
    else
      match pySplit sep cs with
      | r :: rs => (c :: r) :: rs
      | [] => [[c]]

/-- One container definition dictionary of a task definition.
`image` is `some _` exactly when the dictionary has an `'image'` key
(the code tests `'image' in ctr`); every other key/value pair of the
dictionary is carried opaquely in `rest`. -/
structure ContainerSpec where
  name : String
  image : Option String
  rest : List (String × String)
deriving DecidableEq

/-- The task definition dictionary returned by
`ecs_client.describe_task_definition(...)['taskDefinition']`, restricted
to the fields the deploy code reads.  Optional fields are `none` when the
key is absent from the response. -/
structure TaskDef where
  family : String
  containerDefinitions : List ContainerSpec
  volumes : Option (List String)
  taskRoleArn : Option String
  executionRoleArn : Option String
  networkMode : Option String
  requiresCompatibilities : Option (List String)
  cpu : Option String
  memory : Option String
deriving DecidableEq

/-- The keyword arguments the code passes to
`ecs_client.register_task_definition(...)`.  `volumes` and
`requiresCompatibilities` are plain lists because the code always passes
them (`task_definition.get('volumes', [])`,
`task_definition.get('requiresCompatibilities', [])`); the remaining
optional arguments are passed as `task_definition.get(key)`, i.e. `none`
when the key was absent. -/
structure RegisterFields where
  family : String
  containerDefinitions : List ContainerSpec
  volumes : List String
  taskRoleArn : Option String
  executionRoleArn : Option String
  networkMode : Option String
  requiresCompatibilities : List String
  cpu : Option String
  memory : Option String
deriving DecidableEq

/-- Embedding of the image-mutation loop of `deploy`:

    for ctr in task_definition['containerDefinitions']:
        if 'image' in ctr:
            ctr['image'] = image

In the source this loop writes through the `ctr` dictionaries in place,
so the value bound to `task_definition` after the loop is the one this
function returns; `deploy` below rebinds the descriptor accordingly. -/
def withImage (task_definition : TaskDef) (image : String) : TaskDef :=
  { task_definition with
    containerDefinitions := task_definition.containerDefinitions.map fun ctr =>
      if ctr.image.isSome then { ctr with image := some image } else ctr }

/-- The keyword arguments `deploy` builds for `register_task_definition`
from the (mutated) `task_definition` dictionary. -/
def registerFields (task_definition : TaskDef) : RegisterFields :=
  { family := task_definition.family
  , containerDefinitions := task_definition.containerDefinitions
  , volumes := task_definition.volumes.getD []
  , taskRoleArn := task_definition.taskRoleArn
  , executionRoleArn := task_definition.executionRoleArn
  , networkMode := task_definition.networkMode
  , requiresCompatibilities := task_definition.requiresCompatibilities.getD []
  , cpu := task_definition.cpu
  , memory := task_definition.memory }

/-- One registered revision stored by ECS: identity `(family, revision)`,
the stored specification, and whether its status is ACTIVE
(deregistration marks it inactive, it is never deleted). -/
structure Revision where
  family : String
  revision : Nat
  taskDef : TaskDef
  active : Bool
deriving DecidableEq

/-- The platform identifier of a revision (the family:revision tail of
its ARN, abstracting the constant `arn:aws:ecs:...:task-definition/`
part). -/
def Revision.arn (r : Revision) : String :=
  r.family ++ ":" ++ toString r.revision

/-- A running service's pointer to one task-definition revision. -/
structure ServiceBinding where
  cluster : String
  service : String
  taskDefinition : String
deriving DecidableEq

/-- The ECS control-plane state the deploy code calls into. -/
structure EcsState where
  revisions : List Revision
  serviceBindings : List ServiceBinding
deriving DecidableEq

/-- The single most recent ACTIVE revision of a family, if any: the model
of what `list_task_definitions(familyPrefix=..., sort='DESC',
maxResults=1)` selects. -/
def latestActive (st : EcsState) (family : String) : Option Revision :=
  (st.revisions.filter (fun r => r.family == family && r.active)).foldl
    (fun acc r =>
      match acc with
      | none => some r
      | some m => if m.revision < r.revision then some r else some m)
    none

/-- Model of `ecs_client.list_task_definitions(familyPrefix=family,
sort='DESC', maxResults=1)['taskDefinitionArns']`: the ARNs of ACTIVE
revisions of the family, newest first, truncated to one entry. -/
def listTaskDefinitions (st : EcsState) (family : String) : List String :=
  match latestActive st family with
  | none => []
  | some r => [r.arn]

/-- Model of `ecs_client.describe_task_definition(taskDefinition=arn)
['taskDefinition']`: the stored specification of the named revision. -/
def describeTaskDefinition (st : EcsState) (taskDefinition : String) : Option TaskDef :=
  (st.revisions.find? (fun r => r.arn == taskDefinition)).map (·.taskDef)

/-- The highest revision number ever assigned in a family (0 if none):
ECS revision numbers are monotonically increasing and never reused, so
the next registration gets this plus one. -/
def latestRevisionNumber (st : EcsState) (family : String) : Nat :=
  (st.revisions.filter (fun r => r.family == family)).foldl
    (fun m r => max m r.revision) 0

/-- The task definition ECS stores for a registration request: exactly
the submitted keyword arguments (so `volumes` and
`requiresCompatibilities` are always present in the stored revision). -/
def registeredTaskDef (f : RegisterFields) : TaskDef :=
  { family := f.family
  , containerDefinitions := f.containerDefinitions
  , volumes := some f.volumes
  , taskRoleArn := f.taskRoleArn
  , executionRoleArn := f.executionRoleArn
  , networkMode := f.networkMode
  , requiresCompatibilities := some f.requiresCompatibilities
  , cpu := f.cpu
  , memory := f.memory }

/-- Model of `ecs_client.register_task_definition(...)`: appends a new
ACTIVE revision with the next revision number of the family and returns
the new state together with the new revision's identifier
(`new_task_definition['taskDefinition']['taskDefinitionArn']`). -/
def registerTaskDefinition (st : EcsState) (f : RegisterFields) : EcsState × String :=
  let r : Revision :=
    { family := f.family
    , revision := latestRevisionNumber st f.family + 1
    , taskDef := registeredTaskDef f
    , active := true }
  ({ st with revisions := st.revisions ++ [r] }, r.arn)

/-- Model of `ecs_client.deregister_task_definition(taskDefinition=arn)`:
marks the named revision inactive; its stored specification is kept. -/
def deregisterTaskDefinition (st : EcsState) (taskDefinition : String) : EcsState :=
  { st with
    revisions := st.revisions.map fun r =>
      if r.arn == taskDefinition then { r with active := false } else r }

/-- Model of `ecs_client.update_service(cluster=..., service=...,
taskDefinition=arn)`: repoints the named service's binding. -/
def updateService (st : EcsState) (cluster service taskDefinition : String) : EcsState :=
  { st with
    serviceBindings :=
      ⟨cluster, service, taskDefinition⟩ ::
        st.serviceBindings.filter fun b =>
          !(b.cluster == cluster && b.service == service) }

/-- One entry of `response['authorizationData']` from
`ecr_client.get_authorization_token()`. -/
structure AuthData where
  authorizationToken : String
  proxyEndpoint : String
deriving DecidableEq

/-- The ECR / registry environment `push` runs against:
the authorization-token response, the behaviour of
`base64.b64decode(token).decode("utf-8")` (a Python string, embedded as
`List Char`), and the fully-qualified reference `publish` returns. -/
structure EcrEnv where
  authorizationData : List AuthData
  b64decode : String → List Char
  publishedRef : String

/-- The errors the embedded code can raise.
`authorizationError` is `ValueError("No authorization data found")`;
`credentialUnpackError` is the `ValueError` Python raises when
`username, password = decoded_token.split(":")` does not unpack exactly
two values; `notFoundError` is
`ValueError(f"No task definitions found for family: ...")`;
`registrationError` and `describeFailure` stand for the boto3 client
errors of the corresponding calls. -/
inductive Err where
  | authorizationError
  | credentialUnpackError
  | notFoundError (family : String)
  | describeFailure
  | registrationError
deriving DecidableEq

/-- The externally observable calls a run performs, in order. -/
inductive Event where
  | getAuthorizationToken
  | withRegistryAuth (url : String)
  | publish (registry : String)
  | listTaskDefinitions (family : String)
  | describeTaskDefinition (arn : String)
  | registerTaskDefinition (fields : RegisterFields)
  | deregisterTaskDefinition (arn : String)
  | updateService (cluster service arn : String)
deriving DecidableEq

/-- Embedding of `AwsDaggerExample.push`: obtain an authorization token,
fail with `ValueError` if `response["authorizationData"]` is empty,
base64-decode the first token, unpack `username:password`, authenticate
and publish.  Returns the trace of external calls and either the pushed
image reference or the raised error. -/
def push (ecr : EcrEnv) (registry : String) : List Event × Except Err String :=
  match ecr.authorizationData with
  | [] => ([Event.getAuthorizationToken], Except.error Err.authorizationError)
  | auth_data :: _ =>
    let decoded_token := ecr.b64decode auth_data.authorizationToken
    match pySplit ':' decoded_token with
    | [_username, _password] =>
      ([Event.getAuthorizationToken,
        Event.withRegistryAuth auth_data.proxyEndpoint,
        Event.publish registry],
       Except.ok ecr.publishedRef)
    | _ => ([Event.getAuthorizationToken], Except.error Err.credentialUnpackError)

deriving instance DecidableEq for Except

/-- The outcome of one run of `deploy`: the trace of external calls, the
final ECS state, and either the confirmation string or the raised
error. -/
structure DeployRun where
  trace : List Event
  state : EcsState
  result : Except Err String
deriving DecidableEq

/-- Embedding of `AwsDaggerExample.deploy`: push the image, resolve the
latest revision of the family, mutate the container images in place,
register the new revision, deregister the old one, update the service.
`registerAccepts` is whether the platform accepts the
`register_task_definition` call; every raised error propagates (the
`except` block only logs and re-raises). -/
def deploy (ecr : EcrEnv) (registerAccepts : Bool) (st : EcsState)
    (cluster service task_definition_family registry : String) : DeployRun :=
  match push ecr registry with
  | (pushEvents, Except.error e) => ⟨pushEvents, st, Except.error e⟩
  | (pushEvents, Except.ok image) =>
    match listTaskDefinitions st task_definition_family with
    | [] =>
      ⟨pushEvents ++ [Event.listTaskDefinitions task_definition_family], st,
       Except.error (Err.notFoundError task_definition_family)⟩
    | latest_task_definition_arn :: _ =>
      match describeTaskDefinition st latest_task_definition_arn with
      | none =>
        ⟨pushEvents ++ [Event.listTaskDefinitions task_definition_family,
          Event.describeTaskDefinition latest_task_definition_arn], st,
         Except.error Err.describeFailure⟩
      | some task_definition =>
        let fields := registerFields (withImage task_definition image)
        if registerAccepts then
          let reg := registerTaskDefinition st fields
          ⟨pushEvents ++ [Event.listTaskDefinitions task_definition_family,
            Event.describeTaskDefinition latest_task_definition_arn,
            Event.registerTaskDefinition fields,
            Event.deregisterTaskDefinition latest_task_definition_arn,
            Event.updateService cluster service reg.2],
           updateService (deregisterTaskDefinition reg.1 latest_task_definition_arn)
             cluster service reg.2,
           Except.ok ("Service " ++ service ++ " updated to use task definition " ++ reg.2)⟩
        else
          ⟨pushEvents ++ [Event.listTaskDefinitions task_definition_family,
            Event.describeTaskDefinition latest_task_definition_arn,
            Event.registerTaskDefinition fields], st,
           Except.error Err.registrationError⟩

/-- The specification stored for the revision `deploy` registers, as a
function of the resolved descriptor `T` and the pushed image `I`. -/
def newRevisionDescriptor (T : TaskDef) (I : String) : TaskDef :=
  registeredTaskDef (registerFields (withImage T I))

/-- Concrete container spec used in the worked examples. -/
def exContainer : ContainerSpec :=
  { name := "app", image := some "old:1", rest := [("port", "3000")] }

/-- Concrete resolved task definition (family `web`, no optional
fields). -/
def exTaskDef : TaskDef :=
  { family := "web"
  , containerDefinitions := [exContainer]
  , volumes := none
  , taskRoleArn := none
  , executionRoleArn := none
  , networkMode := none
  , requiresCompatibilities := none
  , cpu := none
  , memory := none }

/-- Concrete stored revision `web:3`. -/
def exRevision : Revision :=
  { family := "web", revision := 3, taskDef := exTaskDef, active := true }

/-- Concrete ECS state holding only `web:3`. -/
def exState : EcsState := { revisions := [exRevision], serviceBindings := [] }

/-- Concrete authorization data with a well-formed token. -/
def exAuth : AuthData :=
  { authorizationToken := "QVdTOnBhc3N3b3Jk"
  , proxyEndpoint := "https://123.dkr.ecr.us-east-1.amazonaws.com" }

/-- Concrete ECR environment whose token decodes to `AWS:password`. -/
def exEcr : EcrEnv :=
  { authorizationData := [exAuth]
  , b64decode := fun _ => "AWS:password".toList
  , publishedRef := "registry/app:sha256-new" }

/-- Concrete ECR environment returning an empty authorization data
list. -/
def exEcrNoAuth : EcrEnv :=
  { authorizationData := []
  , b64decode := fun _ => "AWS:password".toList
  , publishedRef := "registry/app:sha256-new" }

/-- Concrete ECR environment whose token decodes to a string with no
colon. -/
def exEcrBadToken : EcrEnv :=
  { authorizationData := [exAuth]
  , b64decode := fun _ => "nocolon".toList
  , publishedRef := "registry/app:sha256-new" }

/-- Concrete ECS state with no revisions at all. -/
def exEmptyState : EcsState := { revisions := [], serviceBindings := [] }

theorem pySplit_ne_nil (sep : Char) (s : List Char) : pySplit sep s ≠ [] := by
  cases s with
  | nil => simp [pySplit]
  | cons c cs =>
    simp only [pySplit]
    split
    · simp
    · split <;> simp

theorem pySplit_length (sep : Char) (s : List Char) :
    (pySplit sep s).length = s.count sep + 1 := by
  induction s with
  | nil => rfl
  | cons c cs ih =>
    by_cases h : c = sep
    · subst h
      simp [pySplit, List.count_cons, ih]
    · rcases hps : pySplit sep cs with _ | ⟨r, rs⟩
      · exact absurd hps (pySplit_ne_nil sep cs)
      · have hlen : (r :: rs).length = cs.count sep + 1 := by rw [← hps, ih]
        simp only [List.length_cons] at hlen
        simp [pySplit, h, hps, List.count_cons]
        omega

theorem push_cases (ecr : EcrEnv) (reg : String) :
    push ecr reg = ([Event.getAuthorizationToken], Except.error Err.authorizationError)
    ∨ push ecr reg = ([Event.getAuthorizationToken], Except.error Err.credentialUnpackError)
    ∨ ∃ url, push ecr reg
        = ([Event.getAuthorizationToken, Event.withRegistryAuth url, Event.publish reg],
           Except.ok ecr.publishedRef) := by
  rcases hE : ecr.authorizationData with _ | ⟨ad, tl⟩
  · left
    simp only [push, hE]
  · simp only [push, hE]
    rcases pySplit ':' (ecr.b64decode ad.authorizationToken) with _ | ⟨u, l⟩
    · right; left; rfl
    · rcases l with _ | ⟨p, l2⟩
      · right; left; rfl
      · rcases l2 with _ | ⟨x, l3⟩
        · right; right; exact ⟨ad.proxyEndpoint, rfl⟩
        · right; left; rfl

theorem push_ok_publish (ecr : EcrEnv) (reg : String) (pev : List Event) (img : String)
    (h : push ecr reg = (pev, Except.ok img)) : Event.publish reg ∈ pev := by
  rcases push_cases ecr reg with hc | hc | ⟨url, hc⟩ <;> rw [hc] at h <;>
    injection h with h1 h2
  · exact absurd h2 (by simp)
  · exact absurd h2 (by simp)
  · rw [← h1]
    simp

theorem push_trace_no_ecs (ecr : EcrEnv) (reg : String) :
    (∀ a, Event.listTaskDefinitions a ∉ (push ecr reg).1)
    ∧ (∀ a, Event.describeTaskDefinition a ∉ (push ecr reg).1)
    ∧ (∀ f, Event.registerTaskDefinition f ∉ (push ecr reg).1)
    ∧ (∀ a, Event.deregisterTaskDefinition a ∉ (push ecr reg).1)
    ∧ (∀ c s a, Event.updateService c s a ∉ (push ecr reg).1) := by
  rcases push_cases ecr reg with hc | hc | ⟨url, hc⟩ <;> rw [hc] <;> simp

theorem listTaskDefinitions_eq_nil (st : EcsState) (fam : String)
    (h : ∀ r ∈ st.revisions, r.family ≠ fam) : listTaskDefinitions st fam = [] := by
  unfold listTaskDefinitions latestActive
  have hf : st.revisions.filter (fun r => r.family == fam && r.active) = [] := by
    rw [List.filter_eq_nil_iff]
    intro r hr
    simp [h r hr]
  rw [hf]
  rfl

theorem deploy_cases (ecr : EcrEnv) (regOk : Bool) (st : EcsState)
    (cluster service fam reg : String) :
    (∃ pev e, push ecr reg = (pev, Except.error e)
      ∧ deploy ecr regOk st cluster service fam reg = ⟨pev, st, Except.error e⟩)
    ∨ (∃ pev img, push ecr reg = (pev, Except.ok img)
      ∧ listTaskDefinitions st fam = []
      ∧ deploy ecr regOk st cluster service fam reg
          = ⟨pev ++ [Event.listTaskDefinitions fam], st,
             Except.error (Err.notFoundError fam)⟩)
    ∨ (∃ pev img arn rest, push ecr reg = (pev, Except.ok img)
      ∧ listTaskDefinitions st fam = arn :: rest
      ∧ describeTaskDefinition st arn = none
      ∧ deploy ecr regOk st cluster service fam reg
          = ⟨pev ++ [Event.listTaskDefinitions fam, Event.describeTaskDefinition arn], st,
             Except.error Err.describeFailure⟩)
    ∨ (∃ pev img arn rest td, push ecr reg = (pev, Except.ok img)
      ∧ listTaskDefinitions st fam = arn :: rest
      ∧ describeTaskDefinition st arn = some td
      ∧ regOk = false
      ∧ deploy ecr regOk st cluster service fam reg
          = ⟨pev ++ [Event.listTaskDefinitions fam, Event.describeTaskDefinition arn,
               Event.registerTaskDefinition (registerFields (withImage td img))], st,
             Except.error Err.registrationError⟩)
    ∨ (∃ pev img arn rest td, push ecr reg = (pev, Except.ok img)
      ∧ listTaskDefinitions st fam = arn :: rest
      ∧ describeTaskDefinition st arn = some td
      ∧ regOk = true
      ∧ deploy ecr regOk st cluster service fam reg
          = ⟨pev ++ [Event.listTaskDefinitions fam, Event.describeTaskDefinition arn,
               Event.registerTaskDefinition (registerFields (withImage td img)),
               Event.deregisterTaskDefinition arn,
               Event.updateService cluster service
                 (registerTaskDefinition st (registerFields (withImage td img))).2],
             updateService
               (deregisterTaskDefinition
                 (registerTaskDefinition st (registerFields (withImage td img))).1 arn)
               cluster service
               (registerTaskDefinition st (registerFields (withImage td img))).2,
             Except.ok ("Service " ++ service ++ " updated to use task definition "
               ++ (registerTaskDefinition st (registerFields (withImage td img))).2)⟩) := by
  rcases hpush : push ecr reg with ⟨pev, pres⟩
  cases pres with
  | error e =>
    left
    exact ⟨pev, e, rfl, by simp only [deploy, hpush]⟩
  | ok img =>
    rcases hl : listTaskDefinitions st fam with _ | ⟨arn, rest⟩
    · right; left
      exact ⟨pev, img, rfl, rfl, by simp only [deploy, hpush, hl]⟩
    · rcases hd : describeTaskDefinition st arn with _ | td
      · right; right; left
        exact ⟨pev, img, arn, rest, rfl, rfl, hd, by simp only [deploy, hpush, hl, hd]⟩
      · cases regOk with
        | false =>
          right; right; right; left
          refine ⟨pev, img, arn, rest, td, rfl, rfl, hd, rfl, ?_⟩
          simp only [deploy, hpush, hl, hd]
          rfl
        | true =>
          right; right; right; right
          refine ⟨pev, img, arn, rest, td, rfl, rfl, hd, rfl, ?_⟩
          simp only [deploy, hpush, hl, hd]
          rfl

/-- C5: if the registry authorization response carries an empty
`authorizationData` list, `push` raises the authorization error and the
trace contains no publish call. -/
theorem push_empty_auth_fails (ecr : EcrEnv) (registry : String)
    (h : ecr.authorizationData = []) :
    push ecr registry
      = ([Event.getAuthorizationToken], Except.error Err.authorizationError)
    ∧ ∀ r, Event.publish r ∉ (push ecr registry).1 := by
  have he : push ecr registry
      = ([Event.getAuthorizationToken], Except.error Err.authorizationError) := by
    unfold push
    rw [h]
  refine ⟨he, ?_⟩
  rw [he]
  intro r
  simp

theorem push_empty_auth_fails_witness :
    exEcrNoAuth.authorizationData = []
    ∧ (push exEcrNoAuth "registry/app"
        = ([Event.getAuthorizationToken], Except.error Err.authorizationError)
      ∧ ∀ r, Event.publish r ∉ (push exEcrNoAuth "registry/app").1) :=
  ⟨rfl, push_empty_auth_fails exEcrNoAuth "registry/app" rfl⟩

/-- C10: when the base64-decoded authorization token does not contain
exactly one colon, the `username, password = decoded_token.split(":")`
unpacking fails, so `push` raises before any registry authentication or
publish call (the trace stops at the token request); in particular the
credential decoding succeeds only for tokens whose decoded form has
exactly one colon. -/
theorem push_bad_token_fails (ecr : EcrEnv) (registry : String)
    (ad : AuthData) (tl : List AuthData)
    (ha : ecr.authorizationData = ad :: tl)
    (hc : (ecr.b64decode ad.authorizationToken).count ':' ≠ 1) :
    push ecr registry
      = ([Event.getAuthorizationToken], Except.error Err.credentialUnpackError) := by
  have hlen : (pySplit ':' (ecr.b64decode ad.authorizationToken)).length ≠ 2 := by
    rw [pySplit_length]
    omega
  simp only [push, ha]
  rcases hps : pySplit ':' (ecr.b64decode ad.authorizationToken) with _ | ⟨u, l⟩
  · rfl
  · rcases l with _ | ⟨p, l2⟩
    · rfl
    · rcases l2 with _ | ⟨x, l3⟩
      · rw [hps] at hlen
        simp at hlen
      · rfl

theorem push_bad_token_fails_witness :
    exEcrBadToken.authorizationData = [exAuth]
    ∧ (exEcrBadToken.b64decode exAuth.authorizationToken).count ':' ≠ 1
    ∧ push exEcrBadToken "registry/app"
        = ([Event.getAuthorizationToken], Except.error Err.credentialUnpackError) :=
  ⟨rfl, by decide,
   push_bad_token_fails exEcrBadToken "registry/app" exAuth [] rfl (by decide)⟩

/-- C7: re-mutating a task definition with a second image reference
overwrites the first: applying the image-mutation step with `I1` and
then `I2` yields the same descriptor as applying it once with `I2`. -/
theorem with_image_overwrite (T : TaskDef) (I1 I2 : String) :
    withImage (withImage T I1) I2 = withImage T I2 := by
  cases T with
  | mk fam cds vols tra era nm rc cpu mem =>
    simp only [withImage, List.map_map]
    congr 1
    apply List.map_congr_left
    intro c _
    cases c with
    | mk n im rest => cases im <;> rfl

/-- C1 counterexample: for the resolved task definition `exTaskDef`,
which carries no `volumes` and no `requiresCompatibilities` key, the
revision registered by `deploy` has both fields present with an empty
list value (`.get('volumes', [])` / `.get('requiresCompatibilities',
[])` default them) instead of leaving them omitted. -/
theorem volumes_defaulted_counterexample :
    exTaskDef.volumes = none
    ∧ (newRevisionDescriptor exTaskDef "registry/app:sha256-new").volumes = some []
    ∧ exTaskDef.requiresCompatibilities = none
    ∧ (newRevisionDescriptor exTaskDef "registry/app:sha256-new").requiresCompatibilities
        = some [] :=
  ⟨rfl, rfl, rfl, rfl⟩

/-- C1 (amended): the registered new revision keeps the resolved
revision's family, role ARNs, network mode, cpu and memory exactly
(present or absent); every container keeps its name and its other
fields, a container without an image keeps none, and a container with
an image gets the pushed reference; absent `volumes` and
`requiresCompatibilities` are however defaulted to present-but-empty
lists rather than omitted. -/
theorem new_revision_descriptor_fields (T : TaskDef) (I : String) :
    (newRevisionDescriptor T I).family = T.family
    ∧ (newRevisionDescriptor T I).taskRoleArn = T.taskRoleArn
    ∧ (newRevisionDescriptor T I).executionRoleArn = T.executionRoleArn
    ∧ (newRevisionDescriptor T I).networkMode = T.networkMode
    ∧ (newRevisionDescriptor T I).cpu = T.cpu
    ∧ (newRevisionDescriptor T I).memory = T.memory
    ∧ (newRevisionDescriptor T I).volumes = some (T.volumes.getD [])
    ∧ (newRevisionDescriptor T I).requiresCompatibilities
        = some (T.requiresCompatibilities.getD [])
    ∧ List.Forall₂
        (fun c c' => c'.name = c.name ∧ c'.rest = c.rest
          ∧ (c.image = none → c'.image = none)
          ∧ ∀ s, c.image = some s → c'.image = some I)
        T.containerDefinitions (newRevisionDescriptor T I).containerDefinitions := by
  refine ⟨rfl, rfl, rfl, rfl, rfl, rfl, rfl, rfl, ?_⟩
  show List.Forall₂ _ T.containerDefinitions
    (T.containerDefinitions.map fun ctr =>
      if ctr.image.isSome then { ctr with image := some I } else ctr)
  induction T.containerDefinitions with
  | nil => exact List.Forall₂.nil
  | cons c cs ih =>
    refine List.Forall₂.cons ?_ ih
    cases hc : c.image with
    | none => simp [hc]
    | some a => simp [hc]

/-- C2 counterexample: the image-mutation loop writes through the `ctr`
dictionaries of the resolved descriptor, so after the step the
descriptor bound to `task_definition` no longer carries its original
container specs. -/
theorem with_image_changes_resolved_descriptor :
    (withImage exTaskDef "registry/app:sha256-new").containerDefinitions
      ≠ exTaskDef.containerDefinitions := by
  decide

/-- C3: when the target family has zero registered revisions (and the
preceding push succeeded, so control reaches the resolution step),
`deploy` raises the not-found error right after the single list call and
performs no describe, register, deregister or update-service call. -/
theorem deploy_empty_family_fails (ecr : EcrEnv) (regOk : Bool) (st : EcsState)
    (cluster service fam reg : String) (pev : List Event) (img : String)
    (hpush : push ecr reg = (pev, Except.ok img))
    (hfam : ∀ r ∈ st.revisions, r.family ≠ fam) :
    deploy ecr regOk st cluster service fam reg
      = ⟨pev ++ [Event.listTaskDefinitions fam], st,
         Except.error (Err.notFoundError fam)⟩
    ∧ (∀ a, Event.describeTaskDefinition a
        ∉ (deploy ecr regOk st cluster service fam reg).trace)
    ∧ (∀ f, Event.registerTaskDefinition f
        ∉ (deploy ecr regOk st cluster service fam reg).trace)
    ∧ (∀ a, Event.deregisterTaskDefinition a
        ∉ (deploy ecr regOk st cluster service fam reg).trace)
    ∧ ∀ c s a, Event.updateService c s a
        ∉ (deploy ecr regOk st cluster service fam reg).trace := by
  have hl := listTaskDefinitions_eq_nil st fam hfam
  have hD : deploy ecr regOk st cluster service fam reg
      = ⟨pev ++ [Event.listTaskDefinitions fam], st,
         Except.error (Err.notFoundError fam)⟩ := by
    simp only [deploy, hpush, hl]
  obtain ⟨n1, n2, n3, n4, n5⟩ := push_trace_no_ecs ecr reg
  have hp1 : (push ecr reg).1 = pev := by rw [hpush]
  rw [hp1] at n2 n3 n4 n5
  refine ⟨hD, ?_, ?_, ?_, ?_⟩
  · intro a
    rw [hD]
    simp [n2 a]
  · intro f
    rw [hD]
    simp [n3 f]
  · intro a
    rw [hD]
    simp [n4 a]
  · intro c s a
    rw [hD]
    simp [n5 c s a]

theorem deploy_empty_family_fails_witness :
    (push exEcr "registry/app"
      = ([Event.getAuthorizationToken, Event.withRegistryAuth exAuth.proxyEndpoint,
          Event.publish "registry/app"], Except.ok "registry/app:sha256-new"))
    ∧ (∀ r ∈ exState.revisions, r.family ≠ "missing")
    ∧ deploy exEcr true exState "cluster" "svc" "missing" "registry/app"
        = ⟨[Event.getAuthorizationToken, Event.withRegistryAuth exAuth.proxyEndpoint,
            Event.publish "registry/app", Event.listTaskDefinitions "missing"], exState,
           Except.error (Err.notFoundError "missing")⟩ :=
  ⟨rfl, by decide,
   (deploy_empty_family_fails exEcr true exState "cluster" "svc" "missing" "registry/app"
      [Event.getAuthorizationToken, Event.withRegistryAuth exAuth.proxyEndpoint,
       Event.publish "registry/app"] "registry/app:sha256-new" rfl (by decide)).1⟩

/-- C6: push precedes resolution: when the push succeeds and the target
family has zero registered revisions, the whole push trace — including
the publish call, which has therefore already happened — precedes the
single list call, and `deploy` then fails with the not-found error. -/
theorem deploy_push_precedes_resolve (ecr : EcrEnv) (regOk : Bool) (st : EcsState)
    (cluster service fam reg : String) (pev : List Event) (img : String)
    (hpush : push ecr reg = (pev, Except.ok img))
    (hfam : ∀ r ∈ st.revisions, r.family ≠ fam) :
    (deploy ecr regOk st cluster service fam reg).trace
      = pev ++ [Event.listTaskDefinitions fam]
    ∧ Event.publish reg ∈ pev
    ∧ (deploy ecr regOk st cluster service fam reg).result
        = Except.error (Err.notFoundError fam)
    ∧ ∀ st2 : EcsState, ∃ rest,
        (deploy ecr regOk st2 cluster service fam reg).trace
          = pev ++ (Event.listTaskDefinitions fam :: rest)
        ∧ ∀ r2, Event.publish r2 ∉ rest := by
  have hl := listTaskDefinitions_eq_nil st fam hfam
  have hD : deploy ecr regOk st cluster service fam reg
      = ⟨pev ++ [Event.listTaskDefinitions fam], st,
         Except.error (Err.notFoundError fam)⟩ := by
    simp only [deploy, hpush, hl]
  refine ⟨by rw [hD], push_ok_publish ecr reg pev img hpush, by rw [hD], ?_⟩
  intro st2
  rcases deploy_cases ecr regOk st2 cluster service fam reg with
    ⟨pev', e, hp, hD2⟩ | ⟨pev', img', hp, hl2, hD2⟩ |
    ⟨pev', img', arn, rest', hp, hl2, hd2, hD2⟩ |
    ⟨pev', img', arn, rest', td, hp, hl2, hd2, hr2, hD2⟩ |
    ⟨pev', img', arn, rest', td, hp, hl2, hd2, hr2, hD2⟩
  · rw [hpush] at hp
    injection hp with h1 h2
    exact absurd h2 (by simp)
  · rw [hpush] at hp
    injection hp with h1 h2
    subst h1
    rw [hD2]
    exact ⟨[], rfl, by simp⟩
  · rw [hpush] at hp
    injection hp with h1 h2
    subst h1
    rw [hD2]
    exact ⟨[Event.describeTaskDefinition arn], rfl, by simp⟩
  · rw [hpush] at hp
    injection hp with h1 h2
    injection h2 with h2
    subst h1
    subst h2
    rw [hD2]
    exact ⟨[Event.describeTaskDefinition arn,
      Event.registerTaskDefinition (registerFields (withImage td img))], rfl, by simp⟩
  · rw [hpush] at hp
    injection hp with h1 h2
    injection h2 with h2
    subst h1
    subst h2
    rw [hD2]
    exact ⟨[Event.describeTaskDefinition arn,
      Event.registerTaskDefinition (registerFields (withImage td img)),
      Event.deregisterTaskDefinition arn,
      Event.updateService cluster service
        (registerTaskDefinition st2 (registerFields (withImage td img))).2], rfl, by simp⟩

theorem deploy_push_precedes_resolve_witness :
    (push exEcr "reg.example/app"
      = ([Event.getAuthorizationToken, Event.withRegistryAuth exAuth.proxyEndpoint,
          Event.publish "reg.example/app"], Except.ok "registry/app:sha256-new"))
    ∧ (∀ r ∈ exEmptyState.revisions, r.family ≠ "web")
    ∧ ((deploy exEcr true exEmptyState "cluster" "svc" "web" "reg.example/app").trace
        = [Event.getAuthorizationToken, Event.withRegistryAuth exAuth.proxyEndpoint,
           Event.publish "reg.example/app"] ++ [Event.listTaskDefinitions "web"]
      ∧ Event.publish "reg.example/app"
          ∈ [Event.getAuthorizationToken, Event.withRegistryAuth exAuth.proxyEndpoint,
             Event.publish "reg.example/app"]
      ∧ (deploy exEcr true exEmptyState "cluster" "svc" "web" "reg.example/app").result
          = Except.error (Err.notFoundError "web")
      ∧ ∀ st2 : EcsState, ∃ rest,
          (deploy exEcr true st2 "cluster" "svc" "web" "reg.example/app").trace
            = [Event.getAuthorizationToken, Event.withRegistryAuth exAuth.proxyEndpoint,
               Event.publish "reg.example/app"] ++ (Event.listTaskDefinitions "web" :: rest)
          ∧ ∀ r2, Event.publish r2 ∉ rest) :=
  ⟨rfl, by decide,
   deploy_push_precedes_resolve exEcr true exEmptyState "cluster" "svc" "web" "reg.example/app"
     [Event.getAuthorizationToken, Event.withRegistryAuth exAuth.proxyEndpoint,
      Event.publish "reg.example/app"] "registry/app:sha256-new" rfl (by decide)⟩

/-- C4: in every successful run of `deploy` the trace ends with the
registration, then the deregistration of the old revision, then the
service update — so the old revision is deregistered strictly before
the update is issued — the updated identifier is exactly the one the
registration returned, and no registration, deregistration or update
occurs earlier in the trace. -/
theorem deploy_rollover_order (ecr : EcrEnv) (regOk : Bool) (st : EcsState)
    (cluster service fam reg msg : String)
    (h : (deploy ecr regOk st cluster service fam reg).result = Except.ok msg) :
    ∃ pre fields oldArn newArn,
      (deploy ecr regOk st cluster service fam reg).trace
        = pre ++ [Event.registerTaskDefinition fields,
                  Event.deregisterTaskDefinition oldArn,
                  Event.updateService cluster service newArn]
      ∧ newArn = (registerTaskDefinition st fields).2
      ∧ (∀ f, Event.registerTaskDefinition f ∉ pre)
      ∧ (∀ a, Event.deregisterTaskDefinition a ∉ pre)
      ∧ ∀ c s a, Event.updateService c s a ∉ pre := by
  rcases deploy_cases ecr regOk st cluster service fam reg with
    ⟨pev, e, hp, hD⟩ | ⟨pev, img, hp, hl, hD⟩ | ⟨pev, img, arn, rest, hp, hl, hd, hD⟩ |
    ⟨pev, img, arn, rest, td, hp, hl, hd, hr, hD⟩ |
    ⟨pev, img, arn, rest, td, hp, hl, hd, hr, hD⟩
  · rw [hD] at h
    exact absurd h (by simp)
  · rw [hD] at h
    exact absurd h (by simp)
  · rw [hD] at h
    exact absurd h (by simp)
  · rw [hD] at h
    exact absurd h (by simp)
  · obtain ⟨n1, n2, n3, n4, n5⟩ := push_trace_no_ecs ecr reg
    have hp1 : (push ecr reg).1 = pev := by rw [hp]
    rw [hp1] at n3 n4 n5
    rw [hD]
    refine ⟨pev ++ [Event.listTaskDefinitions fam, Event.describeTaskDefinition arn],
      registerFields (withImage td img), arn,
      (registerTaskDefinition st (registerFields (withImage td img))).2,
      ?_, rfl, ?_, ?_, ?_⟩
    · simp
    · intro f
      simp [n3 f]
    · intro a
      simp [n4 a]
    · intro c s a
      simp [n5 c s a]

theorem deploy_rollover_order_witness :
    ((deploy exEcr true exState "cluster" "svc" "web" "registry/app").result
      = Except.ok "Service svc updated to use task definition web:4")
    ∧ ∃ pre fields oldArn newArn,
        (deploy exEcr true exState "cluster" "svc" "web" "registry/app").trace
          = pre ++ [Event.registerTaskDefinition fields,
                    Event.deregisterTaskDefinition oldArn,
                    Event.updateService "cluster" "svc" newArn]
        ∧ newArn = (registerTaskDefinition exState fields).2
        ∧ (∀ f, Event.registerTaskDefinition f ∉ pre)
        ∧ (∀ a, Event.deregisterTaskDefinition a ∉ pre)
        ∧ ∀ c s a, Event.updateService c s a ∉ pre :=
  ⟨rfl,
   deploy_rollover_order exEcr true exState "cluster" "svc" "web" "registry/app"
     "Service svc updated to use task definition web:4" rfl⟩

/-- C9: every successful run of `deploy` returns the confirmation string
naming the updated service and the new revision identifier, where that
identifier is the one of the update-service call of the same run. -/
theorem deploy_success_message (ecr : EcrEnv) (regOk : Bool) (st : EcsState)
    (cluster service fam reg msg : String)
    (h : (deploy ecr regOk st cluster service fam reg).result = Except.ok msg) :
    ∃ newArn,
      msg = "Service " ++ service ++ " updated to use task definition " ++ newArn
      ∧ Event.updateService cluster service newArn
          ∈ (deploy ecr regOk st cluster service fam reg).trace := by
  rcases deploy_cases ecr regOk st cluster service fam reg with
    ⟨pev, e, hp, hD⟩ | ⟨pev, img, hp, hl, hD⟩ | ⟨pev, img, arn, rest, hp, hl, hd, hD⟩ |
    ⟨pev, img, arn, rest, td, hp, hl, hd, hr, hD⟩ |
    ⟨pev, img, arn, rest, td, hp, hl, hd, hr, hD⟩
  · rw [hD] at h
    exact absurd h (by simp)
  · rw [hD] at h
    exact absurd h (by simp)
  · rw [hD] at h
    exact absurd h (by simp)
  · rw [hD] at h
    exact absurd h (by simp)
  · rw [hD] at h ⊢
    simp only [Except.ok.injEq] at h
    exact ⟨(registerTaskDefinition st (registerFields (withImage td img))).2,
      h.symm, by simp⟩

theorem deploy_success_message_witness :
    ((deploy exEcr true exState "cluster" "svc" "web" "registry/app").result
      = Except.ok "Service svc updated to use task definition web:4")
    ∧ ∃ newArn,
        "Service svc updated to use task definition web:4"
          = "Service " ++ "svc" ++ " updated to use task definition " ++ newArn
        ∧ Event.updateService "cluster" "svc" newArn
            ∈ (deploy exEcr true exState "cluster" "svc" "web" "registry/app").trace :=
  ⟨rfl,
   deploy_success_message exEcr true exState "cluster" "svc" "web" "registry/app"
     "Service svc updated to use task definition web:4" rfl⟩

/-- C8: if the platform rejects the registration of the new revision,
`deploy` fails before the deregistration and the service update: the
final ECS state is exactly the initial one (so the old latest revision
is still active and every service binding is unchanged), the trace
contains no deregister and no update-service call, and the run does not
succeed. -/
theorem deploy_register_failure_preserves_state (ecr : EcrEnv) (regOk : Bool)
    (st : EcsState) (cluster service fam reg : String)
    (h : regOk = false) :
    (deploy ecr regOk st cluster service fam reg).state = st
    ∧ (∀ a, Event.deregisterTaskDefinition a
        ∉ (deploy ecr regOk st cluster service fam reg).trace)
    ∧ (∀ c s a, Event.updateService c s a
        ∉ (deploy ecr regOk st cluster service fam reg).trace)
    ∧ ∀ m, (deploy ecr regOk st cluster service fam reg).result ≠ Except.ok m := by
  subst h
  obtain ⟨n1, n2, n3, n4, n5⟩ := push_trace_no_ecs ecr reg
  rcases deploy_cases ecr false st cluster service fam reg with
    ⟨pev, e, hp, hD⟩ | ⟨pev, img, hp, hl, hD⟩ | ⟨pev, img, arn, rest, hp, hl, hd, hD⟩ |
    ⟨pev, img, arn, rest, td, hp, hl, hd, hr, hD⟩ |
    ⟨pev, img, arn, rest, td, hp, hl, hd, hr, hD⟩
  · have hp1 : (push ecr reg).1 = pev := by rw [hp]
    rw [hp1] at n4 n5
    rw [hD]
    exact ⟨rfl, fun a => n4 a, fun c s a => n5 c s a, fun m hm => Except.noConfusion hm⟩
  · have hp1 : (push ecr reg).1 = pev := by rw [hp]
    rw [hp1] at n4 n5
    rw [hD]
    exact ⟨rfl, fun a => by simp [n4 a], fun c s a => by simp [n5 c s a],
      fun m hm => Except.noConfusion hm⟩
  · have hp1 : (push ecr reg).1 = pev := by rw [hp]
    rw [hp1] at n4 n5
    rw [hD]
    exact ⟨rfl, fun a => by simp [n4 a], fun c s a => by simp [n5 c s a],
      fun m hm => Except.noConfusion hm⟩
  · have hp1 : (push ecr reg).1 = pev := by rw [hp]
    rw [hp1] at n4 n5
    rw [hD]
    exact ⟨rfl, fun a => by simp [n4 a], fun c s a => by simp [n5 c s a],
      fun m hm => Except.noConfusion hm⟩
  · exact absurd hr (by simp)

theorem deploy_register_failure_preserves_state_witness :
    (deploy exEcr false exState "cluster" "svc" "web" "registry/app").state = exState
    ∧ (∀ a, Event.deregisterTaskDefinition a
        ∉ (deploy exEcr false exState "cluster" "svc" "web" "registry/app").trace)
    ∧ (∀ c s a, Event.updateService c s a
        ∉ (deploy exEcr false exState "cluster" "svc" "web" "registry/app").trace)
    ∧ ∀ m, (deploy exEcr false exState "cluster" "svc" "web" "registry/app").result
        ≠ Except.ok m :=
  deploy_register_failure_preserves_state exEcr false exState
    "cluster" "svc" "web" "registry/app" rfl

theorem deregister_preserves_fields (st : EcsState) (arn : String) (r : Revision)
    (hr : r ∈ st.revisions) :
    ∃ r' ∈ (deregisterTaskDefinition st arn).revisions,
      r'.family = r.family ∧ r'.revision = r.revision ∧ r'.taskDef = r.taskDef := by
  refine ⟨if r.arn == arn then { r with active := false } else r, ?_, ?_⟩
  · exact List.mem_map_of_mem _ hr
  · split <;> exact ⟨rfl, rfl, rfl⟩

/-- C2 (amended): the image-mutation loop rewrites the resolved
descriptor's container images in place (see the counterexample), but no
revision stored in ECS is changed by a run of `deploy`: every revision
present before the run is still present afterwards with the same
family, revision number and stored task definition — only its active
status may change, and a new stored descriptor appears only at
registration. -/
theorem deploy_preserves_stored_revisions (ecr : EcrEnv) (regOk : Bool) (st : EcsState)
    (cluster service fam reg : String) (r : Revision)
    (hr : r ∈ st.revisions) :
    ∃ r' ∈ (deploy ecr regOk st cluster service fam reg).state.revisions,
      r'.family = r.family ∧ r'.revision = r.revision ∧ r'.taskDef = r.taskDef := by
  rcases deploy_cases ecr regOk st cluster service fam reg with
    ⟨pev, e, hp, hD⟩ | ⟨pev, img, hp, hl, hD⟩ | ⟨pev, img, arn, rest, hp, hl, hd, hD⟩ |
    ⟨pev, img, arn, rest, td, hp, hl, hd, hr', hD⟩ |
    ⟨pev, img, arn, rest, td, hp, hl, hd, hr', hD⟩
  · rw [hD]
    exact ⟨r, hr, rfl, rfl, rfl⟩
  · rw [hD]
    exact ⟨r, hr, rfl, rfl, rfl⟩
  · rw [hD]
    exact ⟨r, hr, rfl, rfl, rfl⟩
  · rw [hD]
    exact ⟨r, hr, rfl, rfl, rfl⟩
  · rw [hD]
    have hr1 : r ∈ (registerTaskDefinition st (registerFields (withImage td img))).1.revisions :=
      List.mem_append_left _ hr
    exact deregister_preserves_fields _ arn r hr1

theorem deploy_preserves_stored_revisions_witness :
    exRevision ∈ exState.revisions
    ∧ ∃ r' ∈ (deploy exEcr true exState "cluster" "svc" "web" "registry/app").state.revisions,
        r'.family = exRevision.family ∧ r'.revision = exRevision.revision
        ∧ r'.taskDef = exRevision.taskDef :=
  ⟨by decide,
   deploy_preserves_stored_revisions exEcr true exState "cluster" "svc" "web" "registry/app"
     exRevision (by decide)⟩

end AwsDaggerExample
